import Mathlib

/-!
Shallow embedding of `src/Pagination.ts` (class `Pagination<T>`) from the
youtubes.js repository.

Modelling conventions:
- The neverthrow `Result<A, E>` type is modelled as `Except E A`
  (`ok` = `Except.ok`, `err` = `Except.error`).
- The TypeScript field `getWithToken : (token: string) => Promise<Result<Pagination<T>, E>>`
  is a capability bound at construction time and never reassigned; the
  embedding passes it as an explicit parameter `getWithToken` to each method.
  `await` of a resolved promise is modelled as a pure function call.
- A TypeScript value of type `string | null` is `Option String`; `number | null`
  is `Option Int`; `null`/`undefined` are both `none`.
- The JavaScript truthiness test `!token` on a `string | null` value is true
  exactly when the value is `null` or the empty string; the embedding tests
  `none` and `= ""` accordingly.
- Methods that invoke the capability also return the list of tokens passed to
  it, in call order (the fetch trace), so that invocation counts are statable.
- The two `while` loops of `all()` are given a fuel parameter; `none` as the
  overall answer means the fuel was exhausted before a loop reached its exit
  condition (which never happens on a finite acyclic chain with enough fuel,
  the only situation the claims quantify over).
- The `logger` field only emits debug text and influences no result value; it
  is omitted.
-/

/-- One page of a paginated API response, per class `Pagination<T>`:
payload `data`, mandatory counters `resultsPerPage` and `totalResults`, and
the optional continuation tokens `prevToken` and `nextToken`. -/
structure Pagination (T : Type) where
  data : T
  resultsPerPage : Int
  totalResults : Int
  prevToken : Option String
  nextToken : Option String
deriving DecidableEq

/-- Type of the injected fetch capability `getWithToken`. -/
abbrev FetchFn (T E : Type) : Type := String → Except E (Pagination T)

/-- Method `prev()`: `if (!this.prevToken) return null;` then
`return await this.getWithToken(this.prevToken)`. The first component is the
returned value (`none` models the `null` return, the distinct absent value);
the second component is the fetch trace. -/
def Pagination.prev {T E : Type} (getWithToken : FetchFn T E) (p : Pagination T) :
    Option (Except E (Pagination T)) × List String :=
  match p.prevToken with
  | none => (none, [])
  | some t => if t = "" then (none, []) else (some (getWithToken t), [t])

/-- Method `next()`: symmetric to `prev()` on `nextToken`. -/
def Pagination.next {T E : Type} (getWithToken : FetchFn T E) (p : Pagination T) :
    Option (Except E (Pagination T)) × List String :=
  match p.nextToken with
  | none => (none, [])
  | some t => if t = "" then (none, []) else (some (getWithToken t), [t])

/-- The backward `while (prev)` loop of `all()`. The second argument is the
value of the loop variable `prev` (outcome of the last `prev()` call), the
third the accumulator `result`. On each pass: a failing outcome returns that
failure at once, a successful page has its `data` prepended (`unshift`) and
`prev()` is called on it. Returns the final accumulator or the failure,
paired with the fetch trace of the loop body; `none` means fuel ran out. -/
def prevLoop {T E : Type} (getWithToken : FetchFn T E) :
    Nat → Option (Except E (Pagination T)) → List T →
    Option (Except E (List T) × List String)
  | _, none, acc => some (Except.ok acc, [])
  | _, some (Except.error e), _ => some (Except.error e, [])
  | 0, some (Except.ok _), _ => none
  | fuel + 1, some (Except.ok p), acc =>
    let st := p.prev getWithToken
    match prevLoop getWithToken fuel st.1 (p.data :: acc) with
    | none => none
    | some (res, tr) => some (res, st.2 ++ tr)

/-- The forward `while (next)` loop of `all()`: as `prevLoop` but the page
data is appended (`push`) and `next()` drives the walk. -/
def nextLoop {T E : Type} (getWithToken : FetchFn T E) :
    Nat → Option (Except E (Pagination T)) → List T →
    Option (Except E (List T) × List String)
  | _, none, acc => some (Except.ok acc, [])
  | _, some (Except.error e), _ => some (Except.error e, [])
  | 0, some (Except.ok _), _ => none
  | fuel + 1, some (Except.ok p), acc =>
    let st := p.next getWithToken
    match nextLoop getWithToken fuel st.1 (acc ++ [p.data]) with
    | none => none
    | some (res, tr) => some (res, st.2 ++ tr)

/-- Method `all()`: start from `result = [this.data]`, run the backward loop
seeded with `this.prev()`, short-circuit on its failure (returning before any
forward fetch), then run the forward loop seeded with `this.next()` and
return `ok(result)` or the first failure. The value is paired with the
backward-phase and forward-phase fetch traces. -/
def Pagination.all {T E : Type} (getWithToken : FetchFn T E) (fuel : Nat) (p : Pagination T) :
    Option (Except E (List T) × List String × List String) :=
  let pr := p.prev getWithToken
  match prevLoop getWithToken fuel pr.1 [p.data] with
  | none => none
  | some (Except.error e, trB) => some (Except.error e, pr.2 ++ trB, [])
  | some (Except.ok acc, trB) =>
    let nx := p.next getWithToken
    match nextLoop getWithToken fuel nx.1 acc with
    | none => none
    | some (res, trF) => some (res, pr.2 ++ trB, nx.2 ++ trF)

/-- Two successive invocations of `prev()` on the same cursor: the pair of
outcomes together with the concatenated fetch trace of both calls. -/
def prevTwice {T E : Type} (getWithToken : FetchFn T E) (p : Pagination T) :
    (Option (Except E (Pagination T)) × Option (Except E (Pagination T))) × List String :=
  let c1 := p.prev getWithToken
  let c2 := p.prev getWithToken
  ((c1.1, c2.1), c1.2 ++ c2.2)

/-- State-passing form of `prev()`: the method result together with the
cursor fields and the bound capability after the call. The source method
body contains no assignment to any field of `this`, so the post-state below
lists each field unchanged. -/
def Pagination.prevSt {T E : Type} (getWithToken : FetchFn T E) (p : Pagination T) :
    (Option (Except E (Pagination T)) × List String) × Pagination T × FetchFn T E :=
  (p.prev getWithToken,
   { data := p.data, resultsPerPage := p.resultsPerPage, totalResults := p.totalResults,
     prevToken := p.prevToken, nextToken := p.nextToken },
   getWithToken)

/-- State-passing form of `next()`; the source body assigns no field. -/
def Pagination.nextSt {T E : Type} (getWithToken : FetchFn T E) (p : Pagination T) :
    (Option (Except E (Pagination T)) × List String) × Pagination T × FetchFn T E :=
  (p.next getWithToken,
   { data := p.data, resultsPerPage := p.resultsPerPage, totalResults := p.totalResults,
     prevToken := p.prevToken, nextToken := p.nextToken },
   getWithToken)

/-- State-passing form of `all()`; the source body mutates only the local
array `result`, never a field of `this`. -/
def Pagination.allSt {T E : Type} (getWithToken : FetchFn T E) (fuel : Nat) (p : Pagination T) :
    Option (Except E (List T) × List String × List String) × Pagination T × FetchFn T E :=
  (p.all getWithToken fuel,
   { data := p.data, resultsPerPage := p.resultsPerPage, totalResults := p.totalResults,
     prevToken := p.prevToken, nextToken := p.nextToken },
   getWithToken)

/-- The `PaginationOptions<T>` constructor argument (logger and the
capability omitted, see the header). Optional TypeScript fields are `Option`
with default `none`; the constructor lines `this.prevToken = prevToken ?? null`
and `this.nextToken = nextToken ?? null` are the identity on `Option String`. -/
structure PaginationOptions (T : Type) where
  data : T
  prevToken : Option String := none
  nextToken : Option String := none
  resultsPerPage : Option Int := none
  totalResults : Option Int := none
deriving DecidableEq

/-- Modelled from the spec: `isNullish` lives in `src/utils.ts`, which is not
part of the provided sources; per the spec, absence of a value (`null` or
`undefined`, both `none` here) is what the constructor guard detects. -/
def isNullish {α : Type} : Option α → Bool
  | none => true
  | some _ => false

/-- Modelled from the spec: the constructor throws `new Error(LIKELY_BUG)`
with `LIKELY_BUG` from `src/constants.ts`, not part of the provided sources;
the spec names this failure kind ConstructionInvariantViolation. -/
inductive ConstructionInvariantViolation : Type
  | likelyBug
deriving DecidableEq

/-- The constructor of `Pagination<T>`: it stores `data` and the tokens, and
`if (isNullish(resultsPerPage) || isNullish(totalResults))` throws
`Error(LIKELY_BUG)` (modelled as `Except.error`), otherwise stores both
counters and yields the cursor. -/
def Pagination.construct {T : Type} (o : PaginationOptions T) :
    Except ConstructionInvariantViolation (Pagination T) :=
  match o.resultsPerPage, o.totalResults with
  | some r, some tot =>
    Except.ok { data := o.data, resultsPerPage := r, totalResults := tot,
                prevToken := o.prevToken, nextToken := o.nextToken }
  | _, _ => Except.error ConstructionInvariantViolation.likelyBug

/-- Page `k` of an `N`-page chain whose payloads are the list `ds`
(`N = ds.length`) and whose continuation tokens are produced by `tok`:
page `k` carries payload `ds[k]`, a token to page `k - 1` unless it is the
first page, and a token to page `k + 1` unless it is the last page. -/
def chainPage {T : Type} [Inhabited T] (ds : List T) (tok : Nat → String) (k : Nat) :
    Pagination T where
  data := ds.getD k default
  resultsPerPage := 1
  totalResults := Int.ofNat ds.length
  prevToken := if k = 0 then none else some (tok (k - 1))
  nextToken := if k + 1 < ds.length then some (tok (k + 1)) else none

/-- A fetch capability is a chain fetch for `ds` and `tok` when every token
of an in-range page fetches exactly that page, and the tokens are honest
(nonempty, so the truthiness guard does not swallow them, and injective on
the page indices). -/
def IsChainFetch {T E : Type} [Inhabited T] (ds : List T) (tok : Nat → String)
    (getWithToken : FetchFn T E) : Prop :=
  (∀ i : Nat, tok i ≠ "") ∧
  (∀ i : Nat, i < ds.length → getWithToken (tok i) = Except.ok (chainPage ds tok i))

/-- Concrete token family for witnesses: page `k` is keyed by the string of
`k + 1` copies of the letter a (never empty, injective). -/
def tokA (k : Nat) : String :=
  String.mk (List.replicate (k + 1) 'a')

/-- Concrete chain capability for witnesses: decodes the page index from the
token length and always succeeds. -/
def chainFetchA (ds : List Nat) : FetchFn Nat String :=
  fun t => Except.ok (chainPage ds tokA (t.data.length - 1))

/-- Concrete faulty chain capability for witnesses: as `chainFetchA` but the
fetch of page `j` fails. -/
def faultyFetchA (ds : List Nat) (j : Nat) : FetchFn Nat String :=
  fun t =>
    if t.data.length = j + 1 then Except.error "boom"
    else Except.ok (chainPage ds tokA (t.data.length - 1))

/-- Concrete payload list for witnesses: a three-page chain. -/
def dsW : List Nat := [10, 20, 30]

/-- Concrete capability for witnesses about cursors that never fetch. -/
def fetchW : FetchFn Nat String :=
  fun _ => Except.error "unused"

/-- Concrete cursor without a previous-page token. -/
def pNoPrev : Pagination Nat :=
  { data := 7, resultsPerPage := 1, totalResults := 1,
    prevToken := none, nextToken := some "q" }

/-- Concrete cursor without a next-page token. -/
def pNoNext : Pagination Nat :=
  { data := 8, resultsPerPage := 1, totalResults := 1,
    prevToken := some "q", nextToken := none }

/-- Concrete cursor whose tokens are present but are the empty string. -/
def pEmptyTok : Pagination Nat :=
  { data := 9, resultsPerPage := 1, totalResults := 1,
    prevToken := some "", nextToken := some "" }

/-- Concrete constructor argument with `resultsPerPage` absent. -/
def oMissing : PaginationOptions Nat :=
  { data := 1, totalResults := some 4 }

/-- Concrete constructor argument with both counters present. -/
def oFull : PaginationOptions Nat :=
  { data := 2, prevToken := some "p", resultsPerPage := some 5, totalResults := some 6 }

theorem chainPage_prev_zero {T E : Type} [Inhabited T] (ds : List T) (tok : Nat → String)
    (f : FetchFn T E) : (chainPage ds tok 0).prev f = (none, []) := by
  simp [Pagination.prev, chainPage]

theorem chainPage_prev_succ {T E : Type} [Inhabited T] (ds : List T) (tok : Nat → String)
    (f : FetchFn T E) (k : Nat) (h : tok k ≠ "") :
    (chainPage ds tok (k + 1)).prev f = (some (f (tok k)), [tok k]) := by
  simp [Pagination.prev, chainPage, h]

theorem chainPage_next_lt {T E : Type} [Inhabited T] (ds : List T) (tok : Nat → String)
    (f : FetchFn T E) (k : Nat) (hk : k + 1 < ds.length) (h : tok (k + 1) ≠ "") :
    (chainPage ds tok k).next f = (some (f (tok (k + 1))), [tok (k + 1)]) := by
  simp [Pagination.next, chainPage, hk, h]

theorem chainPage_next_last {T E : Type} [Inhabited T] (ds : List T) (tok : Nat → String)
    (f : FetchFn T E) (k : Nat) (hk : ¬ k + 1 < ds.length) :
    (chainPage ds tok k).next f = (none, []) := by
  simp [Pagination.next, chainPage, hk]

theorem take_cons_getD {T : Type} [Inhabited T] (ds : List T) (k : Nat) (acc : List T)
    (h : k < ds.length) :
    ds.take k ++ (ds.getD k default :: acc) = ds.take (k + 1) ++ acc := by
  have hg : ds.getD k default = ds[k] := by
    simp [List.getD_eq_getElem?_getD, List.getElem?_eq_getElem h]
  rw [hg, List.take_succ, List.getElem?_eq_getElem h, Option.toList_some,
    List.append_assoc, List.singleton_append]

theorem drop_getD_append {T : Type} [Inhabited T] (ds : List T) (k : Nat) (acc : List T)
    (h : k < ds.length) :
    (acc ++ [ds.getD k default]) ++ ds.drop (k + 1) = acc ++ ds.drop k := by
  rw [List.drop_eq_getElem_cons h]
  simp [List.getD_eq_getElem?_getD, List.getElem?_eq_getElem h]

theorem prevLoop_none {T E : Type} (f : FetchFn T E) (fuel : Nat) (acc : List T) :
    prevLoop f fuel none acc = some (Except.ok acc, []) := by
  cases fuel <;> rfl

theorem prevLoop_error {T E : Type} (f : FetchFn T E) (fuel : Nat) (e : E) (acc : List T) :
    prevLoop f fuel (some (Except.error e)) acc = some (Except.error e, []) := by
  cases fuel <;> rfl

theorem prevLoop_ok_succ {T E : Type} (f : FetchFn T E) (fuel : Nat) (p : Pagination T)
    (acc : List T) :
    prevLoop f (fuel + 1) (some (Except.ok p)) acc =
      match prevLoop f fuel ((p.prev f).1) (p.data :: acc) with
      | none => none
      | some (res, tr) => some (res, (p.prev f).2 ++ tr) := rfl

theorem nextLoop_none {T E : Type} (f : FetchFn T E) (fuel : Nat) (acc : List T) :
    nextLoop f fuel none acc = some (Except.ok acc, []) := by
  cases fuel <;> rfl

theorem nextLoop_error {T E : Type} (f : FetchFn T E) (fuel : Nat) (e : E) (acc : List T) :
    nextLoop f fuel (some (Except.error e)) acc = some (Except.error e, []) := by
  cases fuel <;> rfl

theorem nextLoop_ok_succ {T E : Type} (f : FetchFn T E) (fuel : Nat) (p : Pagination T)
    (acc : List T) :
    nextLoop f (fuel + 1) (some (Except.ok p)) acc =
      match nextLoop f fuel ((p.next f).1) (acc ++ [p.data]) with
      | none => none
      | some (res, tr) => some (res, (p.next f).2 ++ tr) := rfl

theorem prevLoop_chain_ok {T E : Type} [Inhabited T] (ds : List T) (tok : Nat → String)
    (f : FetchFn T E) (htok : ∀ i, tok i ≠ "") :
    ∀ (k fuel : Nat) (acc : List T), k < ds.length → k ≤ fuel →
      (∀ i, i < k → f (tok i) = Except.ok (chainPage ds tok i)) →
      ∃ tr, prevLoop f fuel ((chainPage ds tok k).prev f).1 acc
        = some (Except.ok (ds.take k ++ acc), tr) := by
  intro k
  induction k with
  | zero =>
    intro fuel acc _ _ _
    refine ⟨[], ?_⟩
    rw [chainPage_prev_zero]
    simp [prevLoop_none]
  | succ k ih =>
    intro fuel acc hlt hfuel hgood
    rw [chainPage_prev_succ ds tok f k (htok k)]
    cases fuel with
    | zero => omega
    | succ fuel =>
      obtain ⟨tr2, h2⟩ := ih fuel ((chainPage ds tok k).data :: acc) (by omega) (by omega)
        (fun i hi => hgood i (by omega))
      refine ⟨((chainPage ds tok k).prev f).2 ++ tr2, ?_⟩
      simp only [hgood k (Nat.lt_succ_self k), prevLoop_ok_succ]
      rw [h2]
      have hk : k < ds.length := by omega
      simp only [chainPage] at h2 ⊢
      rw [take_cons_getD ds k acc hk]

theorem nextLoop_chain_ok {T E : Type} [Inhabited T] (ds : List T) (tok : Nat → String)
    (f : FetchFn T E) (htok : ∀ i, tok i ≠ "") :
    ∀ (fuel k : Nat) (acc : List T), k < ds.length → ds.length - (k + 1) ≤ fuel →
      (∀ i, k < i → i < ds.length → f (tok i) = Except.ok (chainPage ds tok i)) →
      ∃ tr, nextLoop f fuel ((chainPage ds tok k).next f).1 acc
        = some (Except.ok (acc ++ ds.drop (k + 1)), tr) := by
  intro fuel
  induction fuel with
  | zero =>
    intro k acc hk hfuel _
    have hlast : ¬ k + 1 < ds.length := by omega
    refine ⟨[], ?_⟩
    rw [chainPage_next_last ds tok f k hlast]
    rw [List.drop_eq_nil_of_le (by omega)]
    simp [nextLoop_none]
  | succ fuel ih =>
    intro k acc hk hfuel hgood
    by_cases hlast : k + 1 < ds.length
    · rw [chainPage_next_lt ds tok f k hlast (htok (k + 1))]
      rw [hgood (k + 1) (Nat.lt_succ_self k) hlast]
      obtain ⟨tr2, h2⟩ := ih (k + 1) (acc ++ [(chainPage ds tok (k + 1)).data]) hlast (by omega)
        (fun i hi hi2 => hgood i (by omega) hi2)
      refine ⟨((chainPage ds tok (k + 1)).next f).2 ++ tr2, ?_⟩
      rw [nextLoop_ok_succ, h2]
      simp only [chainPage]
      rw [drop_getD_append ds (k + 1) acc hlast]
    · refine ⟨[], ?_⟩
      rw [chainPage_next_last ds tok f k hlast]
      rw [List.drop_eq_nil_of_le (by omega)]
      simp [nextLoop_none]

theorem prevLoop_chain_err {T E : Type} [Inhabited T] (ds : List T) (tok : Nat → String)
    (f : FetchFn T E) (j : Nat) (e : E) (htok : ∀ i, tok i ≠ "")
    (hbad : f (tok j) = Except.error e) :
    ∀ (m fuel : Nat) (acc : List T), m ≤ fuel →
      (∀ i, j < i → i < j + m + 1 → f (tok i) = Except.ok (chainPage ds tok i)) →
      ∃ tr, prevLoop f fuel ((chainPage ds tok (j + m + 1)).prev f).1 acc
        = some (Except.error e, tr) := by
  intro m
  induction m with
  | zero =>
    intro fuel acc _ _
    refine ⟨[], ?_⟩
    rw [chainPage_prev_succ ds tok f j (htok j), hbad]
    simp [prevLoop_error]
  | succ m ih =>
    intro fuel acc hfuel hgood
    have harr : j + (m + 1) + 1 = (j + m + 1) + 1 := by omega
    rw [harr, chainPage_prev_succ ds tok f (j + m + 1) (htok (j + m + 1))]
    rw [hgood (j + m + 1) (by omega) (by omega)]
    cases fuel with
    | zero => omega
    | succ fuel =>
      obtain ⟨tr2, h2⟩ := ih fuel ((chainPage ds tok (j + m + 1)).data :: acc) (by omega)
        (fun i hi hi2 => hgood i hi (by omega))
      refine ⟨((chainPage ds tok (j + m + 1)).prev f).2 ++ tr2, ?_⟩
      rw [prevLoop_ok_succ, h2]

theorem nextLoop_chain_err {T E : Type} [Inhabited T] (ds : List T) (tok : Nat → String)
    (f : FetchFn T E) (j : Nat) (e : E) (htok : ∀ i, tok i ≠ "")
    (hbad : f (tok j) = Except.error e) (hj : j < ds.length) :
    ∀ (m fuel k : Nat) (acc : List T), k + m + 1 = j → m ≤ fuel →
      (∀ i, k < i → i < j → f (tok i) = Except.ok (chainPage ds tok i)) →
      ∃ tr, nextLoop f fuel ((chainPage ds tok k).next f).1 acc
        = some (Except.error e, tr) := by
  intro m
  induction m with
  | zero =>
    intro fuel k acc hkj _ _
    have hk1 : k + 1 < ds.length := by omega
    refine ⟨[], ?_⟩
    rw [chainPage_next_lt ds tok f k hk1 (htok (k + 1))]
    have : k + 1 = j := by omega
    rw [this, hbad]
    simp [nextLoop_error]
  | succ m ih =>
    intro fuel k acc hkj hfuel hgood
    have hk1 : k + 1 < ds.length := by omega
    rw [chainPage_next_lt ds tok f k hk1 (htok (k + 1))]
    rw [hgood (k + 1) (by omega) (by omega)]
    cases fuel with
    | zero => omega
    | succ fuel =>
      obtain ⟨tr2, h2⟩ := ih fuel (k + 1) (acc ++ [(chainPage ds tok (k + 1)).data])
        (by omega) (by omega) (fun i hi hi2 => hgood i (by omega) hi2)
      refine ⟨((chainPage ds tok (k + 1)).next f).2 ++ tr2, ?_⟩
      rw [nextLoop_ok_succ, h2]

theorem all_eq {T E : Type} (f : FetchFn T E) (fuel : Nat) (p : Pagination T) :
    p.all f fuel =
      match prevLoop f fuel ((p.prev f).1) [p.data] with
      | none => none
      | some (Except.error e, trB) => some (Except.error e, (p.prev f).2 ++ trB, [])
      | some (Except.ok acc, trB) =>
        match nextLoop f fuel ((p.next f).1) acc with
        | none => none
        | some (res, trF) => some (res, (p.prev f).2 ++ trB, (p.next f).2 ++ trF) := rfl

/-- C1: for every chain of N pages (N ≥ 3) whose backward and forward fetches
all succeed, `all()` on the middle cursor (page `N / 2`) returns a success
whose value is exactly the list of the N page payloads, one entry per page
and not flattened, earliest page first, the payload of the current page in
the middle and the payload of the last page last: it is the payload list
`ds` itself. -/
theorem claim_C1 {T E : Type} [Inhabited T] (ds : List T) (tok : Nat → String)
    (f : FetchFn T E) (fuel : Nat)
    (hchain : IsChainFetch ds tok f) (hN : 3 ≤ ds.length) (hfuel : ds.length ≤ fuel) :
    ∃ trB trF, (chainPage ds tok (ds.length / 2)).all f fuel
      = some (Except.ok ds, trB, trF) := by
  obtain ⟨htok, hgood⟩ := hchain
  set k := ds.length / 2 with hk
  have hkN : k < ds.length := by omega
  obtain ⟨trB, hB⟩ := prevLoop_chain_ok ds tok f htok k fuel [(chainPage ds tok k).data]
    hkN (by omega) (fun i hi => hgood i (by omega))
  obtain ⟨trF, hF⟩ := nextLoop_chain_ok ds tok f htok fuel k
    (ds.take k ++ [(chainPage ds tok k).data]) hkN (by omega) (fun i _ hi2 => hgood i hi2)
  have hlist : (ds.take k ++ [(chainPage ds tok k).data]) ++ ds.drop (k + 1) = ds := by
    have hd : (chainPage ds tok k).data = ds.getD k default := rfl
    rw [hd, drop_getD_append ds k (ds.take k) hkN, List.take_append_drop]
  rw [hlist] at hF
  refine ⟨((chainPage ds tok k).prev f).2 ++ trB, ((chainPage ds tok k).next f).2 ++ trF, ?_⟩
  rw [all_eq, hB]
  simp only [hF]

/-- C2: on a chain with one failing page fetch, `all()` returns exactly that
failure with no partial payloads (the failure value carries no data). When
the failing page lies in the backward direction (`j < k`, walking from page
`k`), the forward-phase fetch trace is empty: the backward walk completes
with the failure before any forward fetch is invoked. When the failing page
lies in the forward direction (`k < j`), the already-accumulated backward
payloads are discarded and the overall result is that same failure. -/
theorem claim_C2 {T E : Type} [Inhabited T] (ds : List T) (tok : Nat → String)
    (f : FetchFn T E) (fuel j k : Nat) (e : E)
    (htok : ∀ i, tok i ≠ "")
    (hgood : ∀ i, i < ds.length → i ≠ j → f (tok i) = Except.ok (chainPage ds tok i))
    (hbad : f (tok j) = Except.error e)
    (hk : k < ds.length) (hj : j < ds.length) (hfuel : ds.length ≤ fuel) :
    (j < k → ∃ trB, (chainPage ds tok k).all f fuel = some (Except.error e, trB, [])) ∧
    (k < j → ∃ trB trF, (chainPage ds tok k).all f fuel
      = some (Except.error e, trB, trF)) := by
  constructor
  · intro hjk
    obtain ⟨trB, hB⟩ := prevLoop_chain_err ds tok f j e htok hbad (k - j - 1) fuel
      [(chainPage ds tok k).data] (by omega)
      (fun i hi hi2 => hgood i (by omega) (by omega))
    have harr : j + (k - j - 1) + 1 = k := by omega
    rw [harr] at hB
    refine ⟨((chainPage ds tok k).prev f).2 ++ trB, ?_⟩
    rw [all_eq, hB]
  · intro hkj
    obtain ⟨trB, hB⟩ := prevLoop_chain_ok ds tok f htok k fuel [(chainPage ds tok k).data]
      hk (by omega) (fun i hi => hgood i (by omega) (by omega))
    obtain ⟨trF, hF⟩ := nextLoop_chain_err ds tok f j e htok hbad hj (j - k - 1) fuel k
      (ds.take k ++ [(chainPage ds tok k).data]) (by omega) (by omega)
      (fun i hi hi2 => hgood i (by omega) (by omega))
    refine ⟨((chainPage ds tok k).prev f).2 ++ trB,
      ((chainPage ds tok k).next f).2 ++ trF, ?_⟩
    rw [all_eq, hB]
    simp only [hF]

theorem tokA_ne_empty (i : Nat) : tokA i ≠ "" := by
  intro h
  rw [String.ext_iff] at h
  simp [tokA] at h

theorem chainFetchA_good (ds : List Nat) (i : Nat) :
    chainFetchA ds (tokA i) = Except.ok (chainPage ds tokA i) := by
  simp [chainFetchA, tokA]

theorem faultyFetchA_bad (ds : List Nat) (j : Nat) :
    faultyFetchA ds j (tokA j) = Except.error "boom" := by
  simp [faultyFetchA, tokA]

theorem faultyFetchA_good (ds : List Nat) (j i : Nat) (h : i ≠ j) :
    faultyFetchA ds j (tokA i) = Except.ok (chainPage ds tokA i) := by
  simp [faultyFetchA, tokA, h]

theorem claim_C1_witness :
    IsChainFetch dsW tokA (chainFetchA dsW) ∧ 3 ≤ dsW.length ∧ dsW.length ≤ 3 ∧
    ∃ trB trF, (chainPage dsW tokA (dsW.length / 2)).all (chainFetchA dsW) 3
      = some (Except.ok dsW, trB, trF) := by
  have hc : IsChainFetch dsW tokA (chainFetchA dsW) :=
    ⟨tokA_ne_empty, fun i _ => chainFetchA_good dsW i⟩
  exact ⟨hc, by decide, by decide,
    claim_C1 dsW tokA (chainFetchA dsW) 3 hc (by decide) (by decide)⟩

theorem claim_C2_witness :
    (∀ i, i < dsW.length → i ≠ 0 → faultyFetchA dsW 0 (tokA i)
        = Except.ok (chainPage dsW tokA i)) ∧
    faultyFetchA dsW 0 (tokA 0) = Except.error "boom" ∧
    ∃ trB, (chainPage dsW tokA 1).all (faultyFetchA dsW 0) 3
      = some (Except.error "boom", trB, []) := by
  refine ⟨fun i _ hi => faultyFetchA_good dsW 0 i hi, faultyFetchA_bad dsW 0, ?_⟩
  exact (claim_C2 dsW tokA (faultyFetchA dsW 0) 3 0 1 "boom" tokA_ne_empty
    (fun i _ hi => faultyFetchA_good dsW 0 i hi) (faultyFetchA_bad dsW 0)
    (by decide) (by decide) (by decide)).1 (by decide)

/-- C3: construction with `resultsPerPage` absent or `totalResults` absent
(the nullish guard of the source constructor) fails with the fatal
ConstructionInvariantViolation error and produces no cursor; construction
with both present succeeds and stores them, together with the payload and
the tokens. -/
theorem claim_C3 {T : Type} (o : PaginationOptions T) :
    ((isNullish o.resultsPerPage || isNullish o.totalResults) = true →
      Pagination.construct o
        = Except.error ConstructionInvariantViolation.likelyBug) ∧
    (∀ r tot : Int, o.resultsPerPage = some r → o.totalResults = some tot →
      Pagination.construct o = Except.ok
        { data := o.data, resultsPerPage := r, totalResults := tot,
          prevToken := o.prevToken, nextToken := o.nextToken }) := by
  constructor
  · intro h
    cases hr : o.resultsPerPage <;> cases ht : o.totalResults <;>
      simp [Pagination.construct, hr, ht, isNullish] at h ⊢
  · intro r tot hr ht
    simp [Pagination.construct, hr, ht]

theorem claim_C3_witness :
    (isNullish oMissing.resultsPerPage || isNullish oMissing.totalResults) = true ∧
    Pagination.construct oMissing
      = Except.error ConstructionInvariantViolation.likelyBug ∧
    oFull.resultsPerPage = some 5 ∧ oFull.totalResults = some 6 ∧
    Pagination.construct oFull = Except.ok
      { data := 2, resultsPerPage := 5, totalResults := 6,
        prevToken := some "p", nextToken := none } := by
  refine ⟨rfl, (claim_C3 oMissing).1 rfl, rfl, rfl, ?_⟩
  exact (claim_C3 oFull).2 5 6 rfl rfl

/-- C4: a cursor without a previous-page token: `prev()` returns the absent
value `none` (distinct from every success and every failure outcome) and the
fetch trace is empty, so the capability is invoked zero times. -/
theorem claim_C4 {T E : Type} (p : Pagination T) (getWithToken : FetchFn T E)
    (h : p.prevToken = none) : p.prev getWithToken = (none, []) := by
  simp [Pagination.prev, h]

theorem claim_C4_witness :
    pNoPrev.prevToken = none ∧ pNoPrev.prev fetchW = (none, []) :=
  ⟨rfl, claim_C4 pNoPrev fetchW rfl⟩

/-- C5: a cursor without a next-page token: `next()` returns the absent
value `none` and invokes the capability zero times. -/
theorem claim_C5 {T E : Type} (p : Pagination T) (getWithToken : FetchFn T E)
    (h : p.nextToken = none) : p.next getWithToken = (none, []) := by
  simp [Pagination.next, h]

theorem claim_C5_witness :
    pNoNext.nextToken = none ∧ pNoNext.next fetchW = (none, []) :=
  ⟨rfl, claim_C5 pNoNext fetchW rfl⟩

theorem claim_C6_counterexample :
    pEmptyTok.prevToken.isSome = true ∧ pEmptyTok.prev fetchW = (none, []) := by
  refine ⟨rfl, ?_⟩
  simp [pEmptyTok, Pagination.prev]

/-- C6 (amended): for every cursor whose prevToken (respectively nextToken)
is present and nonempty, `prev()` (respectively `next()`) invokes the
capability exactly once with that token unmodified and returns the fetched
outcome unchanged, success or failure alike, with no retry, recovery or
caching. The amendment excludes the present-but-empty token, which the
source truthiness guard treats as absent (see C9). -/
theorem claim_C6_amended {T E : Type} (p : Pagination T) (getWithToken : FetchFn T E) :
    (∀ t, p.prevToken = some t → t ≠ "" →
      p.prev getWithToken = (some (getWithToken t), [t])) ∧
    (∀ t, p.nextToken = some t → t ≠ "" →
      p.next getWithToken = (some (getWithToken t), [t])) := by
  constructor
  · intro t h hne
    simp [Pagination.prev, h, hne]
  · intro t h hne
    simp [Pagination.next, h, hne]

theorem claim_C6_witness :
    pNoNext.prevToken = some "q" ∧ pNoPrev.nextToken = some "q" ∧ "q" ≠ "" ∧
    pNoNext.prev fetchW = (some (fetchW "q"), ["q"]) ∧
    pNoPrev.next fetchW = (some (fetchW "q"), ["q"]) := by
  refine ⟨rfl, rfl, by decide, ?_, ?_⟩
  · exact (claim_C6_amended pNoNext fetchW).1 "q" rfl (by decide)
  · exact (claim_C6_amended pNoPrev fetchW).2 "q" rfl (by decide)

/-- C7: round trip on a 3-page chain A, B, C: `next()` from B yields a
success holding a cursor equal in content to C, and `prev()` from C yields a
success holding a cursor equal in content to B (freshly fetched values, not
reused object identity, which a value equality also covers). -/
theorem claim_C7 {T E : Type} [Inhabited T] (ds : List T) (tok : Nat → String)
    (f : FetchFn T E) (hchain : IsChainFetch ds tok f) (hlen : ds.length = 3) :
    ((chainPage ds tok 1).next f).1 = some (Except.ok (chainPage ds tok 2)) ∧
    ((chainPage ds tok 2).prev f).1 = some (Except.ok (chainPage ds tok 1)) := by
  obtain ⟨htok, hgood⟩ := hchain
  constructor
  · rw [chainPage_next_lt ds tok f 1 (by omega) (htok 2), hgood 2 (by omega)]
  · rw [show (2 : Nat) = 1 + 1 from rfl,
      chainPage_prev_succ ds tok f 1 (htok 1), hgood 1 (by omega)]

theorem claim_C7_witness :
    IsChainFetch dsW tokA (chainFetchA dsW) ∧ dsW.length = 3 ∧
    ((chainPage dsW tokA 1).next (chainFetchA dsW)).1
      = some (Except.ok (chainPage dsW tokA 2)) ∧
    ((chainPage dsW tokA 2).prev (chainFetchA dsW)).1
      = some (Except.ok (chainPage dsW tokA 1)) := by
  have hc : IsChainFetch dsW tokA (chainFetchA dsW) :=
    ⟨tokA_ne_empty, fun i _ => chainFetchA_good dsW i⟩
  obtain ⟨h1, h2⟩ := claim_C7 dsW tokA (chainFetchA dsW) hc (by decide)
  exact ⟨hc, by decide, h1, h2⟩

theorem claim_C8_counterexample :
    pEmptyTok.prevToken.isSome = true ∧ prevTwice fetchW pEmptyTok = ((none, none), []) := by
  refine ⟨rfl, ?_⟩
  simp [prevTwice, pEmptyTok, Pagination.prev]

/-- C8 (amended): for every cursor whose prevToken is present and nonempty,
and any fetch capability (which, being a function, is deterministic), two
successive `prev()` calls issue two independent fetch invocations, one per
call and both passing the same token (no memoization), and return equal
outcomes, hence cursors of equal data content on success. The amendment
excludes the present-but-empty token, which the source truthiness guard
treats as absent (see C9). -/
theorem claim_C8_amended {T E : Type} (p : Pagination T) (getWithToken : FetchFn T E)
    (t : String) (h : p.prevToken = some t) (hne : t ≠ "") :
    prevTwice getWithToken p
      = ((some (getWithToken t), some (getWithToken t)), [t, t]) := by
  simp [prevTwice, Pagination.prev, h, hne]

theorem claim_C8_witness :
    pNoNext.prevToken = some "q" ∧ "q" ≠ "" ∧
    prevTwice fetchW pNoNext = ((some (fetchW "q"), some (fetchW "q")), ["q", "q"]) :=
  ⟨rfl, by decide, claim_C8_amended pNoNext fetchW "q" rfl (by decide)⟩

/-- C9: a present but empty continuation token is treated like an absent
one: the truthiness guard of the source makes `prev()` and `next()` return
the absent value with zero fetch invocations, so an empty token is never
forwarded to the capability. -/
theorem claim_C9 {T E : Type} (p : Pagination T) (getWithToken : FetchFn T E) :
    (p.prevToken = some "" → p.prev getWithToken = (none, [])) ∧
    (p.nextToken = some "" → p.next getWithToken = (none, [])) := by
  constructor
  · intro h
    simp [Pagination.prev, h]
  · intro h
    simp [Pagination.next, h]

theorem claim_C9_witness :
    pEmptyTok.prevToken = some "" ∧ pEmptyTok.prev fetchW = (none, []) ∧
    pEmptyTok.nextToken = some "" ∧ pEmptyTok.next fetchW = (none, []) :=
  ⟨rfl, (claim_C9 pEmptyTok fetchW).1 rfl, rfl, (claim_C9 pEmptyTok fetchW).2 rfl⟩

/-- C10: the state-passing forms of `prev()`, `next()` and `all()` leave the
post-call cursor state, every field included, and the bound capability equal
to the pre-call ones: the source bodies assign no field of `this`, and
adjacent pages arrive only as newly constructed cursors inside the returned
outcome. Purity of the embedding then extends this to any number of calls
in any order. -/
theorem claim_C10 {T E : Type} (p : Pagination T) (getWithToken : FetchFn T E) (fuel : Nat) :
    (p.prevSt getWithToken).2 = (p, getWithToken) ∧
    (p.nextSt getWithToken).2 = (p, getWithToken) ∧
    (p.allSt getWithToken fuel).2 = (p, getWithToken) :=
  ⟨rfl, rfl, rfl⟩
